import Mathlib

/-!
Verification of the BCWorldBuoys characteristic-text interpreter.

The repository contains five variant scripts (`Lights.py`, `LightsV2.py`,
`LightsV3.py`, `LightsV5.py`, `LightsV6.py`) sharing one core: turning a
free-form light-characteristic string into a color, period, range, height,
flash sequence and buoy classification.  This file gives a shallow
embedding of that core, one namespace per variant, and proves or refutes
the specification claims against it.

Modelling conventions:
* Python `str` values are `List Char`; `str.lower()` / `str.upper()` are
  ASCII `Char.toLower` / `Char.toUpper` maps (the inputs are ASCII text).
* Python floats are `ℚ`; every constant appearing in the scripts
  (0.25, 0.5, 0.6, 4.0, …) is exactly representable in binary floating
  point or is used in a way whose outcome is independent of the
  representation error (see `roundHalfEven` uses), so the rational
  semantics agrees with the float semantics on the values reached here.
* `re.search` of the concrete patterns used by the scripts is embedded by
  direct left-to-right scanners (`strContains`, `hasToken`, `scanNum`)
  that reproduce the leftmost-match, greedy-with-backtracking behaviour
  of those specific patterns.
* Python string repetition `"D" * n` for negative `n` yields `""`; this
  is matched by `Int.toNat` / truncated `Nat` subtraction.
-/

/-- ASCII lowering, the embedding of Python `str.lower()`. -/
def pyLower (s : List Char) : List Char := s.map Char.toLower

/-- ASCII raising, the embedding of Python `str.upper()`. -/
def pyUpper (s : List Char) : List Char := s.map Char.toUpper

/-- Embedding of Python's substring test `needle in hay`. -/
def strContains (needle : List Char) : List Char → Bool
  | [] => needle.isEmpty
  | c :: rest => needle.isPrefixOf (c :: rest) || strContains needle rest

/-- Word characters in the sense of the regex class `\w` (ASCII fragment). -/
def isWordChar (c : Char) : Bool := c.isAlphanum || c = '_'

/-- Whether position `i` of `t` holds a word character. -/
def wordCharAt (t : List Char) (i : ℕ) : Bool :=
  match t.get? i with
  | some c => isWordChar c
  | none => false

/-- Token match: `key` occurs at position `i` of `t` bracketed by word boundaries:
the embedding of a match of `\bkey\b` starting at `i`, for a `key` made of
word characters only. -/
def tokenAt (key t : List Char) (i : ℕ) : Bool :=
  key.isPrefixOf (t.drop i) && (i == 0 || !wordCharAt t (i - 1)) &&
    !wordCharAt t (i + key.length)

/-- Embedding of `re.search(r"\bkey\b", t) is not None` for a `key`
consisting of word characters. -/
def hasToken (key t : List Char) : Bool :=
  (List.range (t.length + 1)).any (tokenAt key t)

/-- Whitespace in the sense of the regex class `\s` (ASCII fragment). -/
def isPySpace (c : Char) : Bool :=
  c = ' ' || c = '\t' || c = '\n' || c = '\r' || c.toNat = 11 || c.toNat = 12

/-- Skip the longest whitespace run: the greedy `\s*`. -/
def skipSpaces (l : List Char) : List Char := l.dropWhile isPySpace

/-- Maximal run of decimal digits at the head of the list, and the rest:
the greedy `\d+` / `\d*`. -/
def digitRun : List Char → List Char × List Char
  | [] => ([], [])
  | c :: rest =>
    if c.isDigit then
      let p := digitRun rest
      (c :: p.1, p.2)
    else ([], c :: rest)

/-- Numeric value of a digit string. -/
def digitsToNat (l : List Char) : ℕ :=
  l.foldl (fun a c => 10 * a + (c.toNat - 48)) 0

/-- Attempt to match the group `(\d+(?:\.\d+)?)` at the head of `t`,
greedily; returns the group's value and the remaining input.  (For the
suffixes used in this file — `\s*` followed by a letter — dropping the
optional fraction part during backtracking can never turn a failed suffix
match into a successful one, because the character after the shortened
group would be `.`; so the greedy result is the only candidate.) -/
def numAt (t : List Char) : Option (ℚ × List Char) :=
  let p := digitRun t
  if p.1.isEmpty then none
  else
    match p.2 with
    | '.' :: r2 =>
      let q := digitRun r2
      if q.1.isEmpty then some ((digitsToNat p.1 : ℚ), p.2)
      else some ((digitsToNat p.1 : ℚ) + (digitsToNat q.1 : ℚ) / (10 : ℚ) ^ q.1.length, q.2)
    | _ => some ((digitsToNat p.1 : ℚ), p.2)

/-- Left-to-right scan for the first position where the number group
matches and the supplied suffix test succeeds on the remaining input: the
embedding of `re.search` for the patterns `(\d+(?:\.\d+)?)<suffix>`.
The result is the exact rational denoted by the matched group string;
the `float()` conversion Python then applies to the group — including
its overflow to infinity on groups of 309 digits and more — is modelled
separately by `pyFloatOfDecimal`. -/
def scanNum (sfx : List Char → Bool) : List Char → Option ℚ
  | [] => none
  | c :: rest =>
    match numAt (c :: rest) with
    | some (v, r) => if sfx r then some v else scanNum sfx rest
    | none => scanNum sfx rest

/-- Suffix `\s*s` under `re.I` (no trailing word boundary). -/
def sfxSecondsCI (rest : List Char) : Bool :=
  match skipSpaces rest with
  | c :: _ => c = 's' || c = 'S'
  | [] => false

/-- Suffix `\s*s\b` under `re.I`. -/
def sfxSecondsWordCI (rest : List Char) : Bool :=
  match skipSpaces rest with
  | c :: r2 => (c = 's' || c = 'S') && !(match r2 with
      | d :: _ => isWordChar d
      | [] => false)
  | [] => false

/-- Suffix `\s*M\b`, case-sensitive. -/
def sfxMilesCS (rest : List Char) : Bool :=
  match skipSpaces rest with
  | c :: r2 => c = 'M' && !(match r2 with
      | d :: _ => isWordChar d
      | [] => false)
  | [] => false

/-- Suffix `\s*M\b` (or `\s*m\b`) under `re.I`. -/
def sfxMilesCI (rest : List Char) : Bool :=
  match skipSpaces rest with
  | c :: r2 => (c = 'M' || c = 'm') && !(match r2 with
      | d :: _ => isWordChar d
      | [] => false)
  | [] => false

/-- Trivial suffix: the bare pattern `(\d+(?:\.\d+)?)`. -/
def sfxAny (_ : List Char) : Bool := true

/-- Computable floor of a rational (`Rat.floor_def`: `⌊q⌋ = q.num / q.den`). -/
def ratFloor (x : ℚ) : ℤ := x.num / (x.den : ℤ)

/-- Embedding of Python 3 `round()` on a float that holds an exact value:
round half to even. -/
def roundHalfEven (x : ℚ) : ℤ :=
  if x - (ratFloor x : ℚ) < 1/2 then ratFloor x
  else if x - (ratFloor x : ℚ) > 1/2 then ratFloor x + 1
  else if ratFloor x % 2 = 0 then ratFloor x else ratFloor x + 1

/-- Embedding of Python `int()` on a float holding an exact value:
truncation toward zero. -/
def pyInt (x : ℚ) : ℤ := if 0 ≤ x then ratFloor x else -(ratFloor (-x))

/-- Python `"LD" * n`: the quick-flash tick block. -/
def ldConcat (n : ℕ) : List Char := List.flatten (List.replicate n ['L', 'D'])

/-- A well-formed Bridge Command sequence string: nonempty, over the
alphabet `{L, D}`, starting lit. -/
def goodLD (s : List Char) : Prop :=
  s ≠ [] ∧ s.head? = some 'L' ∧ ∀ c ∈ s, c = 'L' ∨ c = 'D'

/-- Result of a successful Python `float(str)` conversion. -/
inductive PyFloat where
  | finite (q : ℚ)
  | inf
  | ninf
  | nan
  deriving DecidableEq

/-- The smallest magnitude at which IEEE-754 round-to-nearest-even
overflows a binary64 value to infinity: the midpoint 2^1024 - 2^970
between the largest finite double and 2^1024 (ties go to the even,
larger candidate).  Python `float()` of a decimal string returns `inf`
from this magnitude on.  Written as a numeral so that kernel evaluation
uses the binary representation; `FLOAT_OVERFLOW_THRESHOLD_eq` below
certifies the value. -/
def FLOAT_OVERFLOW_THRESHOLD : ℚ :=
  179769313486231580793728971405303415079934132710037826936173778980444968292764750946649017977587207096330286416692887910946555547851940402630657488671505820681908902000708383676273854845817711531764475730270069855571366959622842914819860834936475292719074168444365510704342711559699508093042880177904174497792

/-- Python `float()` applied to the exact (nonnegative) value denoted by
a matched decimal digit group: magnitudes at or beyond the double
overflow boundary become infinity; smaller values keep the exact-rational
idealization used throughout this file. -/
def pyFloatOfDecimal (v : ℚ) : PyFloat :=
  if FLOAT_OVERFLOW_THRESHOLD ≤ v then PyFloat.inf else PyFloat.finite v

/-- Digit group with optional single underscores between digits, as
accepted inside Python `float()` literals: value, number of digits, rest.
`none` when the input does not start with a digit. -/
def digitsUAux (acc cnt : ℕ) : List Char → ℕ × ℕ × List Char
  | '_' :: c :: rest =>
    if c.isDigit then digitsUAux (10 * acc + (c.toNat - 48)) (cnt + 1) rest
    else (acc, cnt, '_' :: c :: rest)
  | c :: rest =>
    if c.isDigit then digitsUAux (10 * acc + (c.toNat - 48)) (cnt + 1) rest
    else (acc, cnt, c :: rest)
  | [] => (acc, cnt, [])

/-- See `digitsUAux`. -/
def digitsU : List Char → Option (ℕ × ℕ × List Char)
  | c :: rest => if c.isDigit then some (digitsUAux (c.toNat - 48) 1 rest) else none
  | [] => none

/-- Exponent digit part of a `float()` literal, applied to the mantissa. -/
def expDigits (v : ℚ) (neg : Bool) (l : List Char) : Option ℚ :=
  match digitsU l with
  | some (e, _, rest) =>
    if rest.isEmpty then some (if neg then v / 10 ^ e else v * 10 ^ e) else none
  | none => none

/-- Optional exponent suffix `(e|E)[+-]?digits` of a `float()` literal;
the whole remaining input must be consumed. -/
def parseExp (v : ℚ) : List Char → Option ℚ
  | [] => some v
  | c :: rest =>
    if c = 'e' || c = 'E' then
      match rest with
      | '+' :: r2 => expDigits v false r2
      | '-' :: r2 => expDigits v true r2
      | r2 => expDigits v false r2
    else none

/-- Unsigned numeric body of a `float()` literal:
`digits [. [digits]] [exp]` or `. digits [exp]`. -/
def parseNumeric (l : List Char) : Option ℚ :=
  match l with
  | '.' :: rest =>
    match digitsU rest with
    | some (f, cnt, r2) => parseExp ((f : ℚ) / 10 ^ cnt) r2
    | none => none
  | _ =>
    match digitsU l with
    | some (n, _, r1) =>
      match r1 with
      | '.' :: r2 =>
        match digitsU r2 with
        | some (f, cnt, r3) => parseExp ((n : ℚ) + (f : ℚ) / 10 ^ cnt) r3
        | none => parseExp (n : ℚ) r2
      | _ => parseExp (n : ℚ) r1
    | none => none

/-- Embedding of Python `float(str)`: strip whitespace, optional sign,
then `inf`/`infinity`/`nan` (case-insensitive) or a numeric literal.
`none` means the conversion raises `ValueError`. -/
def pyFloatOfStr (l : List Char) : Option PyFloat :=
  let t := ((l.dropWhile isPySpace).reverse.dropWhile isPySpace).reverse
  match t with
  | '+' :: r =>
    if pyLower r = "inf".toList || pyLower r = "infinity".toList then some .inf
    else if pyLower r = "nan".toList then some .nan
    else (parseNumeric r).map pyFloatOfDecimal
  | '-' :: r =>
    if pyLower r = "inf".toList || pyLower r = "infinity".toList then some .ninf
    else if pyLower r = "nan".toList then some .nan
    else (parseNumeric r).map
      (fun v => if FLOAT_OVERFLOW_THRESHOLD ≤ v then PyFloat.ninf else PyFloat.finite (-v))
  | r =>
    if pyLower r = "inf".toList || pyLower r = "infinity".toList then some .inf
    else if pyLower r = "nan".toList then some .nan
    else (parseNumeric r).map pyFloatOfDecimal

namespace Lights

/-! Embedding of `src/Lights.py` (first variant: no tick clamp, substring
matching for colors and characteristic keys). -/

def DEFAULT_PERIOD_S : ℚ := 4

def DEFAULT_RANGE_NM : ℚ := 6

/-- Python `extract_color`: color words then single letters, all matched as
substrings of the lowercased text. -/
def extract_color (txt : List Char) : String :=
  if strContains "white".toList (pyLower txt) then "white"
  else if strContains "red".toList (pyLower txt) then "red"
  else if strContains "green".toList (pyLower txt) then "green"
  else if strContains "yellow".toList (pyLower txt) then "yellow"
  else if strContains "blue".toList (pyLower txt) then "blue"
  else if strContains "w".toList (pyLower txt) then "white"
  else if strContains "r".toList (pyLower txt) then "red"
  else if strContains "g".toList (pyLower txt) then "green"
  else if strContains "y".toList (pyLower txt) then "yellow"
  else if strContains "b".toList (pyLower txt) then "blue"
  else "white"

/-- Python `re.search(r"(\d+(?:\.\d+)?)\s*s", txt, re.I)`, group 1 as a number. -/
def periodMatch (txt : List Char) : Option ℚ := scanNum sfxSecondsCI txt

/-- Python `extract_period_seconds`. -/
def extract_period_seconds (txt : List Char) : ℚ :=
  (periodMatch txt).getD DEFAULT_PERIOD_S

/-- Python `extract_char`: substring scan over `["iso","oc","fl","q","vq"]`. -/
def extract_char (txt : List Char) : String :=
  if strContains "iso".toList (pyLower txt) then "ISO"
  else if strContains "oc".toList (pyLower txt) then "OC"
  else if strContains "fl".toList (pyLower txt) then "FL"
  else if strContains "q".toList (pyLower txt) then "Q"
  else if strContains "vq".toList (pyLower txt) then "VQ"
  else "FIX"

/-- Python `P = period_s if period_s > 0.5 else DEFAULT_PERIOD_S`. -/
def noiseGuard (p : ℚ) : ℚ := if p > 1/2 then p else DEFAULT_PERIOD_S

/-- Python `ticks = int(round(P / 0.25))` — note: no `[4, 80]` clamp in this
variant.  The value is nonnegative because `P > 0.5`. -/
def tickCount (p : ℚ) : ℕ := (roundHalfEven (noiseGuard p / (1/4))).toNat

/-- Python `sequence(ch, period_s)`. -/
def sequence (ch : List Char) (period_s : ℚ) : List Char :=
  if "FL".toList.isPrefixOf ch then
    List.replicate 2 'L' ++ List.replicate (tickCount period_s - 2) 'D'
  else if "ISO".toList.isPrefixOf ch then
    List.replicate (tickCount period_s / 2) 'L' ++
      List.replicate (tickCount period_s / 2) 'D'
  else if "OC".toList.isPrefixOf ch then
    List.replicate (pyInt ((tickCount period_s : ℚ) * (3/5))).toNat 'L' ++
      List.replicate (pyInt ((tickCount period_s : ℚ) * (2/5))).toNat 'D'
  else if ch = "Q".toList ∨ ch = "VQ".toList then
    ldConcat (tickCount period_s / 2)
  else ['L']

end Lights

namespace LightsV2

/-! Embedding of `src/LightsV2.py` (word-boundary matching for color
letters and characteristic keys, `[4, 80]` tick clamp, `LFL`/`FFL` keys). -/

def DEFAULT_PERIOD_S : ℚ := 4

/-- Python `extract_color`: color words as substrings of the lowercased text,
then single capital letters as `\b<letter>\b` tokens of the original. -/
def extract_color (txt : List Char) : String :=
  if strContains "white".toList (pyLower txt) then "white"
  else if strContains "red".toList (pyLower txt) then "red"
  else if strContains "green".toList (pyLower txt) then "green"
  else if strContains "yellow".toList (pyLower txt) then "yellow"
  else if strContains "blue".toList (pyLower txt) then "blue"
  else if hasToken "W".toList txt then "white"
  else if hasToken "R".toList txt then "red"
  else if hasToken "G".toList txt then "green"
  else if hasToken "Y".toList txt then "yellow"
  else if hasToken "B".toList txt then "blue"
  else "white"

/-- Python `re.search(r"(\d+(?:\.\d+)?)\s*s\b", text, re.I)`, group 1. -/
def periodMatch (txt : List Char) : Option ℚ := scanNum sfxSecondsWordCI txt

/-- Python `extract_period_seconds`. -/
def extract_period_seconds (txt : List Char) : ℚ :=
  (periodMatch txt).getD DEFAULT_PERIOD_S

/-- Python `extract_char_key`: `\bkey\b` scan over
`["iso","oc","lfl","ffl","fl","vq","q"]` on the lowercased text. -/
def extract_char_key (txt : List Char) : String :=
  if hasToken "iso".toList (pyLower txt) then "ISO"
  else if hasToken "oc".toList (pyLower txt) then "OC"
  else if hasToken "lfl".toList (pyLower txt) then "LFL"
  else if hasToken "ffl".toList (pyLower txt) then "FFL"
  else if hasToken "fl".toList (pyLower txt) then "FL"
  else if hasToken "vq".toList (pyLower txt) then "VQ"
  else if hasToken "q".toList (pyLower txt) then "Q"
  else "FIX"

/-- Python `P = period_s if period_s > 0.5 else DEFAULT_PERIOD_S`. -/
def noiseGuard (p : ℚ) : ℚ := if p > 1/2 then p else DEFAULT_PERIOD_S

/-- Python `ticks = max(4, min(80, int(round(P / 0.25))))`. -/
def tickCount (p : ℚ) : ℕ :=
  (max 4 (min 80 (roundHalfEven (noiseGuard p / (1/4))))).toNat

/-- Python `sequence(ch, period_s)`. -/
def sequence (ch : List Char) (period_s : ℚ) : List Char :=
  if "FL".toList.isPrefixOf ch then
    List.replicate (max 1 (roundHalfEven ((1/2 : ℚ) / (1/4))).toNat) 'L' ++
      List.replicate (tickCount period_s - max 1 (roundHalfEven ((1/2 : ℚ) / (1/4))).toNat) 'D'
  else if "LFL".toList.isPrefixOf ch then
    List.replicate (min (max 1 (roundHalfEven ((2 : ℚ) / (1/4))).toNat) (tickCount period_s - 1)) 'L' ++
      List.replicate (max 1 (tickCount period_s - max 1 (roundHalfEven ((2 : ℚ) / (1/4))).toNat)) 'D'
  else if "ISO".toList.isPrefixOf ch then
    List.replicate (tickCount period_s / 2) 'L' ++
      List.replicate (tickCount period_s - tickCount period_s / 2) 'D'
  else if "OC".toList.isPrefixOf ch then
    List.replicate (roundHalfEven ((tickCount period_s : ℚ) * (3/5))).toNat 'L' ++
      List.replicate (tickCount period_s - (roundHalfEven ((tickCount period_s : ℚ) * (3/5))).toNat) 'D'
  else if ch = "Q".toList ∨ ch = "VQ".toList then
    if (ldConcat (tickCount period_s / 2)).isEmpty then "LD".toList
    else ldConcat (tickCount period_s / 2)
  else ['L']

end LightsV2

namespace LightsV3

/-! Embedding of `src/LightsV3.py` (same extraction as `LightsV2`; the
`LFL` branch caps the lit run at `ticks - 1` before taking the dark
remainder). -/

def DEFAULT_PERIOD_S : ℚ := 4

/-- Python `extract_color` (identical logic to `LightsV2.extract_color`). -/
def extract_color (txt : List Char) : String :=
  if strContains "white".toList (pyLower txt) then "white"
  else if strContains "red".toList (pyLower txt) then "red"
  else if strContains "green".toList (pyLower txt) then "green"
  else if strContains "yellow".toList (pyLower txt) then "yellow"
  else if strContains "blue".toList (pyLower txt) then "blue"
  else if hasToken "W".toList txt then "white"
  else if hasToken "R".toList txt then "red"
  else if hasToken "G".toList txt then "green"
  else if hasToken "Y".toList txt then "yellow"
  else if hasToken "B".toList txt then "blue"
  else "white"

/-- Python `P = period_s if period_s > 0.5 else DEFAULT_PERIOD_S`. -/
def noiseGuard (p : ℚ) : ℚ := if p > 1/2 then p else DEFAULT_PERIOD_S

/-- Python `ticks = max(4, min(80, int(round(P / 0.25))))`. -/
def tickCount (p : ℚ) : ℕ :=
  (max 4 (min 80 (roundHalfEven (noiseGuard p / (1/4))))).toNat

/-- Python `sequence(ch, period_s)`. -/
def sequence (ch : List Char) (period_s : ℚ) : List Char :=
  if "FL".toList.isPrefixOf ch then
    List.replicate (max 1 (roundHalfEven ((1/2 : ℚ) / (1/4))).toNat) 'L' ++
      List.replicate (tickCount period_s - max 1 (roundHalfEven ((1/2 : ℚ) / (1/4))).toNat) 'D'
  else if "LFL".toList.isPrefixOf ch then
    List.replicate (min (max 1 (roundHalfEven ((2 : ℚ) / (1/4))).toNat) (tickCount period_s - 1)) 'L' ++
      List.replicate (tickCount period_s - min (max 1 (roundHalfEven ((2 : ℚ) / (1/4))).toNat) (tickCount period_s - 1)) 'D'
  else if "ISO".toList.isPrefixOf ch then
    List.replicate (tickCount period_s / 2) 'L' ++
      List.replicate (tickCount period_s - tickCount period_s / 2) 'D'
  else if "OC".toList.isPrefixOf ch then
    List.replicate (roundHalfEven ((tickCount period_s : ℚ) * (3/5))).toNat 'L' ++
      List.replicate (tickCount period_s - (roundHalfEven ((tickCount period_s : ℚ) * (3/5))).toNat) 'D'
  else if ch = "Q".toList ∨ ch = "VQ".toList then
    if (ldConcat (tickCount period_s / 2)).isEmpty then "LD".toList
    else ldConcat (tickCount period_s / 2)
  else ['L']

end LightsV3

namespace LightsV5

/-! Embedding of `src/LightsV5.py` (single-text pipeline with buoy-type
inference; `sequence` takes the whole characteristic text and has no
`Q`/`VQ` branch; no period noise guard before the tick clamp). -/

def DEFAULT_HEIGHT_M : ℚ := 10

def DEFAULT_RANGE_NM : ℚ := 10

def DEFAULT_PERIOD_S : ℚ := 4

/-- Python `extract_color`: each color's word and letter token are tested
together, in the order red, green, yellow. -/
def extract_color (txt : List Char) : String :=
  if strContains "RED".toList (pyUpper txt) || hasToken "R".toList (pyUpper txt) then "red"
  else if strContains "GREEN".toList (pyUpper txt) || hasToken "G".toList (pyUpper txt) then "green"
  else if strContains "YELLOW".toList (pyUpper txt) || strContains "AMBER".toList (pyUpper txt)
      || hasToken "Y".toList (pyUpper txt) then "yellow"
  else "white"

/-- Python `re.search(r"(\d+(?:\.\d+)?)\s*s", txt, re.I)`, group 1. -/
def periodMatch (txt : List Char) : Option ℚ := scanNum sfxSecondsCI txt

/-- Python `extract_period_seconds`. -/
def extract_period_seconds (txt : List Char) : ℚ :=
  (periodMatch txt).getD DEFAULT_PERIOD_S

/-- Python `ticks = max(4, min(80, int(round(period / 0.25))))` — no noise guard
on the incoming period in this variant. -/
def tickCount (p : ℚ) : ℕ :=
  (max 4 (min 80 (roundHalfEven (p / (1/4))))).toNat

/-- Python `sequence(ch, period)`: `ch` is the raw characteristic text, scanned
by substring on its uppercasing; there is no `Q`/`VQ` branch. -/
def sequence (ch : List Char) (period : ℚ) : List Char :=
  if strContains "FL".toList (pyUpper ch) then
    List.replicate (pyInt ((1/2 : ℚ) / (1/4))).toNat 'L' ++
      List.replicate (tickCount period - (pyInt ((1/2 : ℚ) / (1/4))).toNat) 'D'
  else if strContains "ISO".toList (pyUpper ch) then
    List.replicate (tickCount period / 2) 'L' ++
      List.replicate (tickCount period - tickCount period / 2) 'D'
  else if strContains "OC".toList (pyUpper ch) then
    List.replicate (pyInt ((tickCount period : ℚ) * (3/5))).toNat 'L' ++
      List.replicate (tickCount period - (pyInt ((tickCount period : ℚ) * (3/5))).toNat) 'D'
  else ['L']

/-- The closed set of Bridge Command buoy types this variant can emit. -/
def buoyTags : List String :=
  ["north_small", "east_small", "south_small", "west_small", "safe",
   "danger_small", "special_small", "pref_stbd_small", "pref_port_small",
   "stbd_post", "port_post", "stbd_small", "port_small", "mooring"]

/-- Python `infer_type(text)`: priority-ordered decision list on the uppercased
text. -/
def infer_type (text : List Char) : String :=
  if strContains "CARDINAL".toList (pyUpper text) then
    if strContains "NORTH".toList (pyUpper text) then "north_small"
    else if strContains "EAST".toList (pyUpper text) then "east_small"
    else if strContains "SOUTH".toList (pyUpper text) then "south_small"
    else if strContains "WEST".toList (pyUpper text) then "west_small"
    else "north_small"
  else if strContains "MO(A)".toList (pyUpper text) || strContains "MORSE (A)".toList (pyUpper text)
      || strContains "R/W".toList (pyUpper text) || strContains "RW".toList (pyUpper text) then
    "safe"
  else if strContains "ISOLATED".toList (pyUpper text) || strContains "DANGER".toList (pyUpper text)
      || strContains "(2)".toList (pyUpper text) then
    "danger_small"
  else if strContains "YELLOW".toList (pyUpper text) || strContains "AMBER".toList (pyUpper text) then
    "special_small"
  else if strContains "CABLE".toList (pyUpper text) || strContains "ANCHOR".toList (pyUpper text)
      || strContains "RESEARCH".toList (pyUpper text) || strContains "OBSTRUCTION".toList (pyUpper text)
      || strContains "TEMP".toList (pyUpper text) then
    "special_small"
  else if strContains "RG".toList (pyUpper text) || strContains "R/G".toList (pyUpper text)
      || strContains "RED AND GREEN".toList (pyUpper text) then
    "pref_stbd_small"
  else if strContains "GR".toList (pyUpper text) || strContains "G/R".toList (pyUpper text)
      || strContains "GREEN AND RED".toList (pyUpper text) then
    "pref_port_small"
  else if strContains "R NUN".toList (pyUpper text)
      || (strContains "RED".toList (pyUpper text) && strContains "NUN".toList (pyUpper text)) then
    "stbd_post"
  else if strContains "G CAN".toList (pyUpper text)
      || (strContains "GREEN".toList (pyUpper text) && strContains "CAN".toList (pyUpper text)) then
    "port_post"
  else if strContains "RED".toList (pyUpper text) || hasToken "R".toList (pyUpper text) then
    "stbd_small"
  else if strContains "GREEN".toList (pyUpper text) || hasToken "G".toList (pyUpper text) then
    "port_small"
  else if strContains "MOOR".toList (pyUpper text) || strContains "ANCHOR".toList (pyUpper text) then
    "mooring"
  else "special_small"

end LightsV5

namespace LightsV6

/-! Embedding of `src/LightsV6.py` (CSV-column pipeline: characteristic,
structure, height and range are separate fields; `infer_buoy_type`
consults the filesystem — `os.path.isdir("black")` — in its
isolated-danger branch, modelled by the explicit `blackIsDir` argument). -/

def DEFAULT_HEIGHT_M : ℚ := 5

def DEFAULT_RANGE_NM : ℚ := 5

def DEFAULT_PERIOD_S : ℚ := 4

/-- Python interpolation of the characteristic and structure fields,
separated by a space and uppercased: the combined classification text. -/
def combined (char struct : List Char) : List Char :=
  pyUpper (char ++ (' ' :: struct))

/-- Python `extract_color`: full words only, on the uppercased text. -/
def extract_color (txt : List Char) : String :=
  if strContains "RED".toList (pyUpper txt) then "red"
  else if strContains "GREEN".toList (pyUpper txt) then "green"
  else if strContains "YELLOW".toList (pyUpper txt) || strContains "AMBER".toList (pyUpper txt) then
    "yellow"
  else "white"

/-- Python `re.search(r"(\d+(?:\.\d+)?)\s*s", txt, re.I)`, group 1. -/
def periodMatch (txt : List Char) : Option ℚ := scanNum sfxSecondsCI txt

/-- Python `extract_period_seconds`. -/
def extract_period_seconds (txt : List Char) : ℚ :=
  (periodMatch txt).getD DEFAULT_PERIOD_S

/-- Python `re.search(r"(\d+(?:\.\d+)?)", txt, re.I)`, group 1: any number. -/
def rangeMatch (txt : List Char) : Option ℚ := scanNum sfxAny txt

/-- Python `extract_range_nm`. -/
def extract_range_nm (txt : List Char) : ℚ :=
  (rangeMatch txt).getD DEFAULT_RANGE_NM

/-- Python `extract_height_m`: `try: return float(txt) except: return default`. -/
def extract_height_m (txt : List Char) : PyFloat :=
  (pyFloatOfStr txt).getD (.finite DEFAULT_HEIGHT_M)

/-- Python `ticks = max(4, min(80, int(round(period / 0.25))))`. -/
def tickCount (p : ℚ) : ℕ :=
  (max 4 (min 80 (roundHalfEven (p / (1/4))))).toNat

/-- Python `sequence(ch, period)`: `ch` is the raw characteristic text, scanned
by substring on its uppercasing; no `Q`/`VQ` branch. -/
def sequence (ch : List Char) (period : ℚ) : List Char :=
  if strContains "FL".toList (pyUpper ch) then
    List.replicate (max 1 (roundHalfEven ((1/2 : ℚ) / (1/4))).toNat) 'L' ++
      List.replicate (tickCount period - max 1 (roundHalfEven ((1/2 : ℚ) / (1/4))).toNat) 'D'
  else if strContains "ISO".toList (pyUpper ch) then
    List.replicate (tickCount period / 2) 'L' ++
      List.replicate (tickCount period - tickCount period / 2) 'D'
  else if strContains "OC".toList (pyUpper ch) then
    List.replicate (roundHalfEven ((tickCount period : ℚ) * (3/5))).toNat 'L' ++
      List.replicate (tickCount period - (roundHalfEven ((tickCount period : ℚ) * (3/5))).toNat) 'D'
  else ['L']

/-- The closed set of Bridge Command buoy types this variant can emit. -/
def buoyTags : List String :=
  ["north_small", "east_small", "south_small", "west_small", "safe",
   "black", "special_post", "special_small", "pref_stbd_small",
   "pref_port_small", "stbd_post", "port_post", "stbd_small",
   "port_small", "mooring", "other"]

/-- Python `infer_buoy_type(char, struct)`: priority-ordered decision list over
the combined uppercased text.  `blackIsDir` is the truth value of
`os.path.isdir("black")` at call time. -/
def infer_buoy_type (char struct : List Char) (blackIsDir : Bool) : String :=
  if strContains "CARDINAL".toList (combined char struct) then
    if strContains "NORTH".toList (combined char struct) then "north_small"
    else if strContains "EAST".toList (combined char struct) then "east_small"
    else if strContains "SOUTH".toList (combined char struct) then "south_small"
    else if strContains "WEST".toList (combined char struct) then "west_small"
    else "north_small"
  else if strContains "MO(A)".toList (combined char struct)
      || strContains "MORSE (A)".toList (combined char struct)
      || strContains "R/W".toList (combined char struct)
      || strContains "RW".toList (combined char struct) then
    "safe"
  else if strContains "ISOLATED".toList (combined char struct)
      || strContains "DANGER".toList (combined char struct)
      || strContains "(2)".toList (combined char struct) then
    (if blackIsDir then "black" else "special_post")
  else if strContains "YELLOW".toList (combined char struct)
      || strContains "AMBER".toList (combined char struct)
      || strContains "RESEARCH".toList (combined char struct)
      || strContains "CABLE".toList (combined char struct)
      || strContains "OBSTRUCTION".toList (combined char struct)
      || strContains "TEMP".toList (combined char struct)
      || strContains "ANCHOR".toList (combined char struct) then
    "special_small"
  else if strContains "RG".toList (combined char struct)
      || strContains "R/G".toList (combined char struct)
      || strContains "RED AND GREEN".toList (combined char struct)
      || strContains "RED OVER GREEN".toList (combined char struct) then
    "pref_stbd_small"
  else if strContains "GR".toList (combined char struct)
      || strContains "G/R".toList (combined char struct)
      || strContains "GREEN AND RED".toList (combined char struct)
      || strContains "GREEN OVER RED".toList (combined char struct) then
    "pref_port_small"
  else if strContains "R NUN".toList (combined char struct)
      || (strContains "RED".toList (combined char struct)
          && strContains "NUN".toList (combined char struct)) then
    "stbd_post"
  else if strContains "G CAN".toList (combined char struct)
      || (strContains "GREEN".toList (combined char struct)
          && strContains "CAN".toList (combined char struct)) then
    "port_post"
  else if strContains "RED".toList (combined char struct) then "stbd_small"
  else if strContains "GREEN".toList (combined char struct) then "port_small"
  else if strContains "MOOR".toList (combined char struct)
      || strContains "ANCHOR".toList (combined char struct) then
    "mooring"
  else "other"

/-- The complete per-record light descriptor this variant serializes. -/
structure LightDescriptor where
  color : String
  periodSeconds : ℚ
  rangeNM : ℚ
  heightM : PyFloat
  flashPattern : List Char

/-- The per-record interpretation performed by the row loop of `main`: one
complete descriptor plus exactly one buoy-classification tag. -/
def interpret (char struct heightField rangeField : List Char) (blackIsDir : Bool) :
    LightDescriptor × String :=
  ({ color := extract_color (char ++ (' ' :: struct))
     periodSeconds := extract_period_seconds char
     rangeNM := extract_range_nm rangeField
     heightM := extract_height_m heightField
     flashPattern := sequence char (extract_period_seconds char) },
   infer_buoy_type char struct blackIsDir)

end LightsV6

/-- The failing characteristic for the overflow crash: 320 nines
followed by the period unit `s`.  Its period group is a 320-digit number,
which `float()` overflows to infinity. -/
def overflowPeriodChar : List Char := List.replicate 320 '9' ++ ['s']

namespace Lights

/-- Overflow-aware period extraction: the float value Python's
`extract_period_seconds` actually returns, `inf` when the matched group
overflows `float()`.  (`extract_period_seconds` above is the
exact-rational idealization, faithful whenever no overflow occurs.) -/
def extract_period_float (txt : List Char) : PyFloat :=
  ((periodMatch txt).map pyFloatOfDecimal).getD (PyFloat.finite DEFAULT_PERIOD_S)

/-- The fallible synthesizer: `sequence` computes
`ticks = int(round(P / 0.25))` before any branch (the `> 0.5` guard
passes an infinite period through), and `round` raises `OverflowError`
on an infinite float and `ValueError` on NaN; `none` models that raise.
On finite periods it agrees with the total `sequence` above. -/
def sequenceE (ch : List Char) (p : PyFloat) : Option (List Char) :=
  match p with
  | PyFloat.finite q => some (sequence ch q)
  | _ => none

end Lights

namespace LightsV2

/-- Overflow-aware period extraction (see `Lights.extract_period_float`). -/
def extract_period_float (txt : List Char) : PyFloat :=
  ((periodMatch txt).map pyFloatOfDecimal).getD (PyFloat.finite DEFAULT_PERIOD_S)

/-- The fallible synthesizer (see `Lights.sequenceE`): the tick
computation raises on a non-finite period before any branch. -/
def sequenceE (ch : List Char) (p : PyFloat) : Option (List Char) :=
  match p with
  | PyFloat.finite q => some (sequence ch q)
  | _ => none

end LightsV2

namespace LightsV3

/-- The fallible synthesizer (see `Lights.sequenceE`): the tick
computation raises on a non-finite period before any branch. -/
def sequenceE (ch : List Char) (p : PyFloat) : Option (List Char) :=
  match p with
  | PyFloat.finite q => some (sequence ch q)
  | _ => none

end LightsV3

namespace LightsV5

/-- Overflow-aware period extraction (see `Lights.extract_period_float`). -/
def extract_period_float (txt : List Char) : PyFloat :=
  ((periodMatch txt).map pyFloatOfDecimal).getD (PyFloat.finite DEFAULT_PERIOD_S)

/-- The fallible synthesizer: `sequence` computes
`ticks = max(4, min(80, int(round(period / 0.25))))` on its first line,
and `round` raises `OverflowError` on an infinite float and `ValueError`
on NaN; `none` models that raise.  On finite periods it agrees with the
total `sequence` above. -/
def sequenceE (ch : List Char) (p : PyFloat) : Option (List Char) :=
  match p with
  | PyFloat.finite q => some (sequence ch q)
  | _ => none

end LightsV5

namespace LightsV6

/-- Overflow-aware period extraction (see `Lights.extract_period_float`). -/
def extract_period_float (txt : List Char) : PyFloat :=
  ((periodMatch txt).map pyFloatOfDecimal).getD (PyFloat.finite DEFAULT_PERIOD_S)

/-- The fallible synthesizer (see `LightsV5.sequenceE`): the tick
computation raises on a non-finite period before any branch. -/
def sequenceE (ch : List Char) (p : PyFloat) : Option (List Char) :=
  match p with
  | PyFloat.finite q => some (sequence ch q)
  | _ => none

/-- The fallible row interpretation performed by the row loop of `main`:
the period float is extracted from the characteristic and passed to
`sequence`, whose tick computation raises `OverflowError` when that
float is infinite — the loop then crashes and produces no record
(`none`).  When the period float is finite the result is exactly
`interpret` (whose `extract_period_seconds` returns the same finite
value). -/
def interpretE (char struct heightField rangeField : List Char) (blackIsDir : Bool) :
    Option (LightDescriptor × String) :=
  match extract_period_float char with
  | PyFloat.finite _ => some (interpret char struct heightField rangeField blackIsDir)
  | _ => none

end LightsV6

/-- The spec's statement of word-priority color extraction: the first
full color word present, in the order the variants check them.  (Spec-side
comparator for the refinement claim; the implementation definitions above
are the authority.) -/
def specFirstColorWord (t : List Char) : Option String :=
  if strContains "white".toList t then some "white"
  else if strContains "red".toList t then some "red"
  else if strContains "green".toList t then some "green"
  else if strContains "yellow".toList t then some "yellow"
  else if strContains "blue".toList t then some "blue"
  else none

theorem FLOAT_OVERFLOW_THRESHOLD_eq :
    FLOAT_OVERFLOW_THRESHOLD = 2 ^ 1024 - 2 ^ 970 := by
  unfold FLOAT_OVERFLOW_THRESHOLD
  norm_num

theorem ratFloor_eq (x : ℚ) : ratFloor x = ⌊x⌋ := (Rat.floor_def).symm

theorem le_roundHalfEven {n : ℤ} {x : ℚ} (h : (n : ℚ) ≤ x) : n ≤ roundHalfEven x := by
  have hf : n ≤ ratFloor x := by rw [ratFloor_eq]; exact Int.le_floor.mpr h
  unfold roundHalfEven
  split_ifs <;> omega

theorem roundHalfEven_le_floor_add_one (x : ℚ) : roundHalfEven x ≤ ratFloor x + 1 := by
  unfold roundHalfEven
  split_ifs <;> omega

theorem one_le_roundHalfEven_toNat {x : ℚ} (h : 1 ≤ x) : 1 ≤ (roundHalfEven x).toNat := by
  have := le_roundHalfEven (n := 1) (by exact_mod_cast h)
  omega

theorem one_le_pyInt_toNat {x : ℚ} (h : 1 ≤ x) : 1 ≤ (pyInt x).toNat := by
  unfold pyInt
  rw [if_pos (le_trans zero_le_one h)]
  have : (1 : ℤ) ≤ ratFloor x := by
    rw [ratFloor_eq]; exact Int.le_floor.mpr (by exact_mod_cast h)
  omega

theorem clamp_ticks_bounds (z : ℤ) :
    4 ≤ (max 4 (min 80 z)).toNat ∧ (max 4 (min 80 z)).toNat ≤ 80 := by
  have h1 : (4 : ℤ) ≤ max 4 (min 80 z) := le_max_left _ _
  have h2 : max 4 (min 80 z) ≤ 80 := max_le (by norm_num) (min_le_left _ _)
  omega

theorem tickCountV2_bounds (p : ℚ) :
    4 ≤ LightsV2.tickCount p ∧ LightsV2.tickCount p ≤ 80 := by
  unfold LightsV2.tickCount; exact clamp_ticks_bounds _

theorem tickCountV3_bounds (p : ℚ) :
    4 ≤ LightsV3.tickCount p ∧ LightsV3.tickCount p ≤ 80 := by
  unfold LightsV3.tickCount; exact clamp_ticks_bounds _

theorem tickCountV5_bounds (p : ℚ) :
    4 ≤ LightsV5.tickCount p ∧ LightsV5.tickCount p ≤ 80 := by
  unfold LightsV5.tickCount; exact clamp_ticks_bounds _

theorem tickCountV6_bounds (p : ℚ) :
    4 ≤ LightsV6.tickCount p ∧ LightsV6.tickCount p ≤ 80 := by
  unfold LightsV6.tickCount; exact clamp_ticks_bounds _

theorem tickCountLights_ge_two (p : ℚ) : 2 ≤ Lights.tickCount p := by
  unfold Lights.tickCount
  have hg : (2 : ℚ) ≤ Lights.noiseGuard p / (1/4) := by
    unfold Lights.noiseGuard
    split_ifs with h
    · rw [le_div_iff₀ (by norm_num)]
      linarith
    · norm_num [Lights.DEFAULT_PERIOD_S]
  have := le_roundHalfEven (n := 2) hg
  omega

theorem goodLD_rep {a : ℕ} (b : ℕ) (h : 1 ≤ a) :
    goodLD (List.replicate a 'L' ++ List.replicate b 'D') := by
  obtain ⟨a, rfl⟩ : ∃ k, a = k + 1 := ⟨a - 1, by omega⟩
  refine ⟨by simp, by simp [List.replicate_succ], ?_⟩
  intro c hc
  rcases List.mem_append.mp hc with hm | hm
  · exact Or.inl (List.eq_of_mem_replicate hm)
  · exact Or.inr (List.eq_of_mem_replicate hm)

theorem ldConcat_succ (n : ℕ) : ldConcat (n + 1) = 'L' :: 'D' :: ldConcat n := rfl

theorem ldConcat_length (n : ℕ) : (ldConcat n).length = 2 * n := by
  induction n with
  | zero => rfl
  | succ k ih => rw [ldConcat_succ]; simp only [List.length_cons, ih]; omega

theorem mem_ldConcat {c : Char} : ∀ {n : ℕ}, c ∈ ldConcat n → c = 'L' ∨ c = 'D' := by
  intro n
  induction n with
  | zero => intro h; simp [ldConcat] at h
  | succ k ih =>
    rw [ldConcat_succ]
    intro h
    simp only [List.mem_cons] at h
    rcases h with h | h | h
    · exact Or.inl h
    · exact Or.inr h
    · exact ih h

theorem goodLD_ldConcat {n : ℕ} (h : 1 ≤ n) : goodLD (ldConcat n) := by
  obtain ⟨k, rfl⟩ : ∃ k, n = k + 1 := ⟨n - 1, by omega⟩
  rw [ldConcat_succ]
  exact ⟨by simp, rfl, fun c hc => mem_ldConcat (by rw [ldConcat_succ]; exact hc)⟩

theorem ldConcat_isEmpty_false {n : ℕ} (h : 1 ≤ n) : (ldConcat n).isEmpty = false := by
  obtain ⟨k, rfl⟩ : ∃ k, n = k + 1 := ⟨n - 1, by omega⟩
  rw [ldConcat_succ]; rfl

theorem goodLD_singleton : goodLD ['L'] :=
  ⟨by simp, rfl, by intro c hc; simp at hc; simp [hc]⟩

theorem seq_good_lights (ch : List Char) (p : ℚ) : goodLD (Lights.sequence ch p) := by
  have ht := tickCountLights_ge_two p
  unfold Lights.sequence
  split_ifs with h1 h2 h3 h4
  · exact goodLD_rep _ (by omega)
  · exact goodLD_rep _ (by omega)
  · refine goodLD_rep _ (one_le_pyInt_toNat ?_)
    have hc : (2 : ℚ) ≤ (Lights.tickCount p : ℚ) := by exact_mod_cast ht
    linarith
  · exact goodLD_ldConcat (by omega)
  · exact goodLD_singleton

theorem seq_good_v5 (ch : List Char) (p : ℚ) : goodLD (LightsV5.sequence ch p) := by
  have ht := tickCountV5_bounds p
  unfold LightsV5.sequence
  split_ifs with h1 h2 h3
  · exact goodLD_rep _ (one_le_pyInt_toNat (by norm_num))
  · exact goodLD_rep _ (by omega)
  · refine goodLD_rep _ (one_le_pyInt_toNat ?_)
    have hc : (4 : ℚ) ≤ (LightsV5.tickCount p : ℚ) := by exact_mod_cast ht.1
    linarith
  · exact goodLD_singleton

theorem seq_good_v6 (ch : List Char) (p : ℚ) : goodLD (LightsV6.sequence ch p) := by
  have ht := tickCountV6_bounds p
  unfold LightsV6.sequence
  split_ifs with h1 h2 h3
  · exact goodLD_rep _ (by omega)
  · exact goodLD_rep _ (by omega)
  · refine goodLD_rep _ (one_le_roundHalfEven_toNat ?_)
    have hc : (4 : ℚ) ≤ (LightsV6.tickCount p : ℚ) := by exact_mod_cast ht.1
    linarith
  · exact goodLD_singleton

theorem mem_ite_of_mem {α : Type} {l : List α} {c : Prop} [Decidable c] {a b : α}
    (ha : a ∈ l) (hb : b ∈ l) : (if c then a else b) ∈ l := by
  split
  · exact ha
  · exact hb

theorem inferV5_mem (t : List Char) : LightsV5.infer_type t ∈ LightsV5.buoyTags := by
  unfold LightsV5.infer_type
  repeat' apply mem_ite_of_mem
  all_goals decide

theorem inferV6_mem (c s : List Char) (b : Bool) :
    LightsV6.infer_buoy_type c s b ∈ LightsV6.buoyTags := by
  unfold LightsV6.infer_buoy_type
  repeat' apply mem_ite_of_mem
  all_goals decide

theorem colorV6_mem (t : List Char) :
    LightsV6.extract_color t ∈ ["red", "green", "yellow", "white"] := by
  unfold LightsV6.extract_color
  repeat' apply mem_ite_of_mem
  all_goals decide

theorem oc_round_le {t : ℕ} (h : 4 ≤ t) : (roundHalfEven ((t : ℚ) * (3/5))).toNat ≤ t := by
  have h1 := roundHalfEven_le_floor_add_one ((t : ℚ) * (3/5))
  have h2 : ratFloor ((t : ℚ) * (3/5)) ≤ (t : ℤ) - 1 := by
    rw [ratFloor_eq]
    have hx : ((t : ℚ) * (3/5)) ≤ ((((t : ℤ) - 1 : ℤ) : ℚ)) := by
      push_cast
      have h4 : (4 : ℚ) ≤ (t : ℚ) := by exact_mod_cast h
      linarith
    calc ⌊(t : ℚ) * (3/5)⌋ ≤ ⌊(((t : ℤ) - 1 : ℤ) : ℚ)⌋ := Int.floor_mono hx
      _ = (t : ℤ) - 1 := Int.floor_intCast _
  omega

set_option maxRecDepth 8000 in
/-- C1 (code bug): the interpreter is not total.  On the characteristic
made of 320 nines followed by `s`, the period regex matches a 320-digit
group, Python `float()` overflows it to infinity, and every variant
synthesizer then raises `OverflowError` inside `int(round(period/0.25))`
— so the `LightsV6` row pipeline (and likewise the other variants) crashes
instead of producing the complete descriptor the claim promises.  The
conjuncts evaluate the embedded code at that failing input: the extracted
period float is `inf`, the synthesizer raises (`none`), and the row
interpretation produces no record. -/
theorem c1_code_bug_overflow_crash :
    LightsV6.extract_period_float overflowPeriodChar = PyFloat.inf ∧
    LightsV6.sequenceE overflowPeriodChar PyFloat.inf = none ∧
    LightsV6.interpretE overflowPeriodChar [] [] [] false = none ∧
    LightsV5.extract_period_float overflowPeriodChar = PyFloat.inf ∧
    LightsV5.sequenceE overflowPeriodChar PyFloat.inf = none ∧
    Lights.extract_period_float overflowPeriodChar = PyFloat.inf ∧
    Lights.sequenceE overflowPeriodChar PyFloat.inf = none := by
  have h6 : LightsV6.extract_period_float overflowPeriodChar = PyFloat.inf := by
    with_unfolding_all decide
  have h5 : LightsV5.extract_period_float overflowPeriodChar = PyFloat.inf := by
    with_unfolding_all decide
  have hL : Lights.extract_period_float overflowPeriodChar = PyFloat.inf := by
    with_unfolding_all decide
  refine ⟨h6, rfl, ?_, h5, rfl, hL, rfl⟩
  unfold LightsV6.interpretE
  rw [h6]

/-- C2 counterexample: for the `FIX` class the synthesized pattern is the
single tick `"L"`, so its length is `1`, not
`clamp(round(4.0 / 0.25), 4, 80) = 16`, and `1 ∉ [4, 80]`. -/
theorem c2_counterexample :
    LightsV3.sequence "FIX".toList 4 = ['L'] ∧
    LightsV3.tickCount 4 = 16 ∧ (1 : ℕ) ≠ 16 ∧ ¬ 4 ≤ (1 : ℕ) := by
  refine ⟨by decide, by with_unfolding_all decide, by decide, by decide⟩

/-- C2 (amended): in the clamped variant `LightsV3`, the classes `FL`,
`LFL`, `ISO` and `OC` produce exactly `clamp(round(period/0.25), 4, 80)`
ticks (a count always in `[4, 80]`); `Q` and `VQ` produce that count
rounded down to an even number; the `FIX` and `FFL` classes produce the
single tick `"L"`; and the unclamped first variant `Lights` applies no
`[4, 80]` cap at all (at period 100 s its `FL` pattern is 400 ticks). -/
theorem c2_amended_tick_counts (p : ℚ) :
    (LightsV3.sequence "FL".toList p).length = LightsV3.tickCount p ∧
    (LightsV3.sequence "LFL".toList p).length = LightsV3.tickCount p ∧
    (LightsV3.sequence "ISO".toList p).length = LightsV3.tickCount p ∧
    (LightsV3.sequence "OC".toList p).length = LightsV3.tickCount p ∧
    (LightsV3.sequence "Q".toList p).length = 2 * (LightsV3.tickCount p / 2) ∧
    (LightsV3.sequence "VQ".toList p).length = 2 * (LightsV3.tickCount p / 2) ∧
    4 ≤ LightsV3.tickCount p ∧ LightsV3.tickCount p ≤ 80 ∧
    LightsV3.sequence "FIX".toList p = ['L'] ∧
    LightsV3.sequence "FFL".toList p = ['L'] ∧
    (Lights.sequence "FL".toList 100).length = 400 := by
  obtain ⟨hlo, hhi⟩ := tickCountV3_bounds p
  have hon2 : max 1 (roundHalfEven ((1/2 : ℚ) / (1/4))).toNat = 2 := by
    with_unfolding_all decide
  have hon8 : max 1 (roundHalfEven ((2 : ℚ) / (1/4))).toNat = 8 := by
    with_unfolding_all decide
  have hoc := oc_round_le hlo
  have hqe := ldConcat_isEmpty_false (show 1 ≤ LightsV3.tickCount p / 2 by omega)
  refine ⟨?_, ?_, ?_, ?_, ?_, ?_, hlo, hhi, rfl, rfl, ?_⟩
  · show (List.replicate (max 1 (roundHalfEven ((1/2 : ℚ) / (1/4))).toNat) 'L' ++
      List.replicate (LightsV3.tickCount p - max 1 (roundHalfEven ((1/2 : ℚ) / (1/4))).toNat) 'D').length
      = LightsV3.tickCount p
    rw [hon2, List.length_append, List.length_replicate, List.length_replicate]
    omega
  · show (List.replicate (min (max 1 (roundHalfEven ((2 : ℚ) / (1/4))).toNat) (LightsV3.tickCount p - 1)) 'L' ++
      List.replicate (LightsV3.tickCount p -
        min (max 1 (roundHalfEven ((2 : ℚ) / (1/4))).toNat) (LightsV3.tickCount p - 1)) 'D').length
      = LightsV3.tickCount p
    rw [hon8, List.length_append, List.length_replicate, List.length_replicate]
    omega
  · show (List.replicate (LightsV3.tickCount p / 2) 'L' ++
      List.replicate (LightsV3.tickCount p - LightsV3.tickCount p / 2) 'D').length
      = LightsV3.tickCount p
    rw [List.length_append, List.length_replicate, List.length_replicate]
    omega
  · show (List.replicate (roundHalfEven ((LightsV3.tickCount p : ℚ) * (3/5))).toNat 'L' ++
      List.replicate (LightsV3.tickCount p -
        (roundHalfEven ((LightsV3.tickCount p : ℚ) * (3/5))).toNat) 'D').length
      = LightsV3.tickCount p
    rw [List.length_append, List.length_replicate, List.length_replicate]
    omega
  · show (if (ldConcat (LightsV3.tickCount p / 2)).isEmpty then "LD".toList
      else ldConcat (LightsV3.tickCount p / 2)).length = 2 * (LightsV3.tickCount p / 2)
    rw [hqe]
    simp [ldConcat_length]
  · show (if (ldConcat (LightsV3.tickCount p / 2)).isEmpty then "LD".toList
      else ldConcat (LightsV3.tickCount p / 2)).length = 2 * (LightsV3.tickCount p / 2)
    rw [hqe]
    simp [ldConcat_length]
  · show (List.replicate 2 'L' ++ List.replicate (Lights.tickCount 100 - 2) 'D').length = 400
    rw [List.length_append, List.length_replicate, List.length_replicate]
    have h400 : Lights.tickCount 100 = 400 := by with_unfolding_all decide
    omega

/-- C3 counterexample: `LightsV6.infer_buoy_type` consults the filesystem
(`os.path.isdir("black")`): on the isolated-danger input its result
depends on whether a directory named `black` exists in the working
directory, so the interpreter is not a pure function of its text inputs. -/
theorem c3_counterexample :
    LightsV6.infer_buoy_type "Isolated danger".toList "".toList true = "black" ∧
    LightsV6.infer_buoy_type "Isolated danger".toList "".toList false = "special_post" ∧
    LightsV6.infer_buoy_type "Isolated danger".toList "".toList true ≠
      LightsV6.infer_buoy_type "Isolated danger".toList "".toList false := by
  refine ⟨by decide, by decide, by decide⟩

/-- C3 (amended): every extraction function and the `LightsV5` classifier
are pure functions of their text inputs, but `LightsV6.infer_buoy_type`
also reads the filesystem in its isolated-danger branch; on every input
whose combined text contains none of `ISOLATED`, `DANGER`, `(2)` — so
that branch is not reached — its result is independent of the filesystem
state. -/
theorem c3_amended_deterministic_off_danger_branch (char struct : List Char) (b1 b2 : Bool)
    (h1 : strContains "ISOLATED".toList (LightsV6.combined char struct) = false)
    (h2 : strContains "DANGER".toList (LightsV6.combined char struct) = false)
    (h3 : strContains "(2)".toList (LightsV6.combined char struct) = false) :
    LightsV6.infer_buoy_type char struct b1 = LightsV6.infer_buoy_type char struct b2 := by
  unfold LightsV6.infer_buoy_type
  rw [h1, h2, h3]
  simp only [Bool.or_self, Bool.false_eq_true, if_false]

/-- C3 witness: on `"Q G"` the classification ignores the filesystem. -/
theorem c3_witness :
    LightsV6.infer_buoy_type "Q G".toList "".toList true =
      LightsV6.infer_buoy_type "Q G".toList "".toList false :=
  c3_amended_deterministic_off_danger_branch "Q G".toList "".toList true false
    (by decide) (by decide) (by decide)

/-- C4 counterexample: `Lights.extract_char` has no `LFL` key, scans its
keys as plain substrings, and finds `"fl"` inside `"lfl 2s"`, so
`"LFl 2s"` is classified `FL`, not `LFL`. -/
theorem c4_counterexample :
    Lights.extract_char "LFl 2s".toList = "FL" ∧ ("FL" : String) ≠ "LFL" :=
  ⟨by decide, by decide⟩

/-- C4 (amended): the word-boundary variants behave as claimed —
`LightsV2.extract_char_key` tests `\bkey\b` with `lfl` before `fl`, so a
string with a standalone `lfl` token (and no earlier `iso`/`oc` token)
extracts `LFL`, and a string with none of the seven key tokens extracts
`FIX`; but the first variant `Lights.extract_char` substring-matches and
has no `LFL` key, so it returns `FL` on `"LFl 2s"`. -/
theorem c4_amended_word_boundary_keys (txt : List Char) :
    (hasToken "iso".toList (pyLower txt) = false →
     hasToken "oc".toList (pyLower txt) = false →
     hasToken "lfl".toList (pyLower txt) = true →
     LightsV2.extract_char_key txt = "LFL") ∧
    (hasToken "iso".toList (pyLower txt) = false →
     hasToken "oc".toList (pyLower txt) = false →
     hasToken "lfl".toList (pyLower txt) = false →
     hasToken "ffl".toList (pyLower txt) = false →
     hasToken "fl".toList (pyLower txt) = false →
     hasToken "vq".toList (pyLower txt) = false →
     hasToken "q".toList (pyLower txt) = false →
     LightsV2.extract_char_key txt = "FIX") := by
  constructor
  · intro h1 h2 h3
    unfold LightsV2.extract_char_key
    rw [if_neg (by simp only [h1]; decide), if_neg (by simp only [h2]; decide), if_pos h3]
  · intro h1 h2 h3 h4 h5 h6 h7
    unfold LightsV2.extract_char_key
    rw [if_neg (by simp only [h1]; decide), if_neg (by simp only [h2]; decide), if_neg (by simp only [h3]; decide),
      if_neg (by simp only [h4]; decide), if_neg (by simp only [h5]; decide), if_neg (by simp only [h6]; decide),
      if_neg (by simp only [h7]; decide)]

/-- C4 witness: `"LFl 2s"` extracts `LFL` in `LightsV2`. -/
theorem c4_witness : LightsV2.extract_char_key "LFl 2s".toList = "LFL" :=
  (c4_amended_word_boundary_keys "LFl 2s".toList).1 (by decide) (by decide) (by decide)

/-- C5 counterexample: `Lights.extract_color` matches single letters as
plain substrings of the lowercased text, so `"Range 6M"` — whose only `r`
is inside the word "Range" — extracts red, not the default white. -/
theorem c5_counterexample :
    Lights.extract_color "Range 6M".toList = "red" ∧ ("red" : String) ≠ "white" :=
  ⟨by decide, by decide⟩

/-- C5 (amended): the word-boundary variants behave as claimed — in
`LightsV2.extract_color` single letters are matched only as standalone
`\b<letter>\b` tokens, so any string containing no full color word and no
standalone color letter (for instance `"Range 6M"`, whose `R` occurs only
inside "Range") extracts the default white; but the first variant
`Lights.extract_color` substring-matches letters and reads `"Range 6M"`
as red. -/
theorem c5_amended_letters_as_tokens_only (txt : List Char)
    (hw : strContains "white".toList (pyLower txt) = false)
    (hr : strContains "red".toList (pyLower txt) = false)
    (hg : strContains "green".toList (pyLower txt) = false)
    (hy : strContains "yellow".toList (pyLower txt) = false)
    (hb : strContains "blue".toList (pyLower txt) = false)
    (tW : hasToken "W".toList txt = false)
    (tR : hasToken "R".toList txt = false)
    (tG : hasToken "G".toList txt = false)
    (tY : hasToken "Y".toList txt = false)
    (tB : hasToken "B".toList txt = false) :
    LightsV2.extract_color txt = "white" := by
  unfold LightsV2.extract_color
  rw [if_neg (by simp only [hw]; decide), if_neg (by simp only [hr]; decide), if_neg (by simp only [hg]; decide),
    if_neg (by simp only [hy]; decide), if_neg (by simp only [hb]; decide), if_neg (by simp only [tW]; decide),
    if_neg (by simp only [tR]; decide), if_neg (by simp only [tG]; decide), if_neg (by simp only [tY]; decide),
    if_neg (by simp only [tB]; decide)]

/-- C5 witness: `"Range 6M"` extracts white in `LightsV2`. -/
theorem c5_witness : LightsV2.extract_color "Range 6M".toList = "white" :=
  c5_amended_letters_as_tokens_only "Range 6M".toList (by decide) (by decide)
    (by decide) (by decide) (by decide) (by decide) (by decide) (by decide)
    (by decide) (by decide)

/-- C6 counterexample: `LightsV5.extract_color` tests each color's word
and letter together in the order red, green, yellow, so on `"Green R"` —
which contains the full word "Green" and the standalone letter `R` — the
`R` token fires first and the result is red, not green. -/
theorem c6_counterexample :
    LightsV5.extract_color "Green R".toList = "red" ∧ ("red" : String) ≠ "green" :=
  ⟨by decide, by decide⟩

/-- C6 (amended): `LightsV3.extract_color` checks all full color words
(in the order white, red, green, yellow, blue, as substrings of the
lowercased text) before any single-letter token, and the first word match
wins regardless of letter tokens; with no word and no letter token the
default is white.  `LightsV5.extract_color` instead interleaves each
color's word and letter, so a standalone letter of an earlier color beats
a full word of a later one. -/
theorem c6_amended_words_first_in_v3 (txt : List Char) :
    (∀ c, specFirstColorWord (pyLower txt) = some c → LightsV3.extract_color txt = c) ∧
    (specFirstColorWord (pyLower txt) = none →
     hasToken "W".toList txt = false → hasToken "R".toList txt = false →
     hasToken "G".toList txt = false → hasToken "Y".toList txt = false →
     hasToken "B".toList txt = false →
     LightsV3.extract_color txt = "white") := by
  constructor
  · intro c h
    unfold specFirstColorWord at h
    unfold LightsV3.extract_color
    by_cases h1 : strContains "white".toList (pyLower txt) = true
    · rw [if_pos h1] at h; rw [if_pos h1]; exact Option.some.inj h
    · rw [if_neg h1] at h; rw [if_neg h1]
      by_cases h2 : strContains "red".toList (pyLower txt) = true
      · rw [if_pos h2] at h; rw [if_pos h2]; exact Option.some.inj h
      · rw [if_neg h2] at h; rw [if_neg h2]
        by_cases h3 : strContains "green".toList (pyLower txt) = true
        · rw [if_pos h3] at h; rw [if_pos h3]; exact Option.some.inj h
        · rw [if_neg h3] at h; rw [if_neg h3]
          by_cases h4 : strContains "yellow".toList (pyLower txt) = true
          · rw [if_pos h4] at h; rw [if_pos h4]; exact Option.some.inj h
          · rw [if_neg h4] at h; rw [if_neg h4]
            by_cases h5 : strContains "blue".toList (pyLower txt) = true
            · rw [if_pos h5] at h; rw [if_pos h5]; exact Option.some.inj h
            · rw [if_neg h5] at h; exact absurd h (by simp)
  · intro h tW tR tG tY tB
    unfold specFirstColorWord at h
    by_cases h1 : strContains "white".toList (pyLower txt) = true
    · rw [if_pos h1] at h; exact absurd h (by simp)
    · rw [if_neg h1] at h
      by_cases h2 : strContains "red".toList (pyLower txt) = true
      · rw [if_pos h2] at h; exact absurd h (by simp)
      · rw [if_neg h2] at h
        by_cases h3 : strContains "green".toList (pyLower txt) = true
        · rw [if_pos h3] at h; exact absurd h (by simp)
        · rw [if_neg h3] at h
          by_cases h4 : strContains "yellow".toList (pyLower txt) = true
          · rw [if_pos h4] at h; exact absurd h (by simp)
          · rw [if_neg h4] at h
            by_cases h5 : strContains "blue".toList (pyLower txt) = true
            · rw [if_pos h5] at h; exact absurd h (by simp)
            · unfold LightsV3.extract_color
              rw [if_neg h1, if_neg h2, if_neg h3, if_neg h4, if_neg h5,
                if_neg (by simp only [tW]; decide), if_neg (by simp only [tR]; decide),
                if_neg (by simp only [tG]; decide), if_neg (by simp only [tY]; decide),
                if_neg (by simp only [tB]; decide)]

/-- C6 witness: `"Red and Green light"` extracts red in `LightsV3`. -/
theorem c6_witness : LightsV3.extract_color "Red and Green light".toList = "red" :=
  (c6_amended_words_first_in_v3 "Red and Green light".toList).1 "red" (by decide)

/-- C7 counterexample: `LightsV5.sequence` has no `Q`/`VQ` branch at all:
on the quick-flashing input `"Q G"` (default period 4 s) it produces the
steady single tick `"L"`, not an alternating pattern filling 16 ticks. -/
theorem c7_counterexample :
    LightsV5.sequence "Q G".toList 4 = ['L'] ∧ (['L'] : List Char).length ≠ 16 := by
  constructor
  · with_unfolding_all decide
  · decide

/-- C7 (amended): in `LightsV2` the claim holds: for `Q` and `VQ` the
pattern is the two-tick unit `"LD"` repeated `ticks // 2` times (never
empty, since `ticks ≥ 4`, so the `or "LD"` fallback is unreachable); on
`"Q G"` the `LightsV2` pipeline gives class `Q`, default period 4 s,
color green, and the 16-tick alternating pattern, and
`LightsV5.infer_type` classifies `"Q G"` as a small port lateral mark.
the `LightsV5` and `LightsV6` synthesizers themselves, however, have no `Q`/`VQ`
branch and produce `"L"` for such inputs. -/
theorem c7_amended_quick_flash (p : ℚ) :
    LightsV2.sequence "Q".toList p = ldConcat (LightsV2.tickCount p / 2) ∧
    LightsV2.sequence "VQ".toList p = ldConcat (LightsV2.tickCount p / 2) ∧
    LightsV2.extract_char_key "Q G".toList = "Q" ∧
    LightsV2.extract_period_seconds "Q G".toList = 4 ∧
    LightsV2.extract_color "Q G".toList = "green" ∧
    LightsV2.sequence "Q".toList 4 = "LDLDLDLDLDLDLDLD".toList ∧
    LightsV5.infer_type "Q G".toList = "port_small" := by
  obtain ⟨hlo, hhi⟩ := tickCountV2_bounds p
  have hqe := ldConcat_isEmpty_false (show 1 ≤ LightsV2.tickCount p / 2 by omega)
  refine ⟨?_, ?_, by decide, by with_unfolding_all decide, by decide,
    by with_unfolding_all decide, by decide⟩
  · show (if (ldConcat (LightsV2.tickCount p / 2)).isEmpty then "LD".toList
      else ldConcat (LightsV2.tickCount p / 2)) = ldConcat (LightsV2.tickCount p / 2)
    rw [hqe]
    simp
  · show (if (ldConcat (LightsV2.tickCount p / 2)).isEmpty then "LD".toList
      else ldConcat (LightsV2.tickCount p / 2)) = ldConcat (LightsV2.tickCount p / 2)
    rw [hqe]
    simp

/-- C8 counterexample: `LightsV5` extracts the period `0.25 s` from
`"Fl 0.25s"` and synthesizes from it directly — no `≤ 0.5 s` noise guard —
yielding the 4-tick pattern `"LLDD"` (only the `[4, 80]` tick clamp
applies), not the 16-tick pattern the 4.0 s default would give. -/
theorem c8_counterexample :
    LightsV5.extract_period_seconds "Fl 0.25s".toList = 1/4 ∧
    LightsV5.sequence "Fl 0.25s".toList (1/4) = "LLDD".toList ∧
    LightsV5.sequence "Fl 0.25s".toList (1/4) ≠ LightsV5.sequence "Fl 0.25s".toList 4 := by
  refine ⟨by with_unfolding_all decide, by with_unfolding_all decide,
    by with_unfolding_all decide⟩

/-- C8 (amended): a period that fails to parse defaults to 4.0 s in every
variant, and the first three variants (`Lights`, `LightsV2`, `LightsV3`)
replace an extracted period `≤ 0.5 s` by the 4.0 s default before
synthesis; `LightsV5` and `LightsV6` have no such noise guard and only
clamp the tick count to at least 4. -/
theorem c8_amended_noise_guard (ch : List Char) (p : ℚ) (txt : List Char) (hle : p ≤ 1/2) :
    Lights.sequence ch p = Lights.sequence ch 4 ∧
    LightsV2.sequence ch p = LightsV2.sequence ch 4 ∧
    LightsV3.sequence ch p = LightsV3.sequence ch 4 ∧
    (Lights.periodMatch txt = none → Lights.extract_period_seconds txt = 4) ∧
    (LightsV5.periodMatch txt = none → LightsV5.extract_period_seconds txt = 4) := by
  have hL : Lights.tickCount p = Lights.tickCount 4 := by
    unfold Lights.tickCount Lights.noiseGuard Lights.DEFAULT_PERIOD_S
    rw [if_neg (by linarith), if_pos (by norm_num)]
  have h2 : LightsV2.tickCount p = LightsV2.tickCount 4 := by
    unfold LightsV2.tickCount LightsV2.noiseGuard LightsV2.DEFAULT_PERIOD_S
    rw [if_neg (by linarith), if_pos (by norm_num)]
  have h3 : LightsV3.tickCount p = LightsV3.tickCount 4 := by
    unfold LightsV3.tickCount LightsV3.noiseGuard LightsV3.DEFAULT_PERIOD_S
    rw [if_neg (by linarith), if_pos (by norm_num)]
  refine ⟨?_, ?_, ?_, ?_, ?_⟩
  · unfold Lights.sequence
    rw [hL]
  · unfold LightsV2.sequence
    rw [h2]
  · unfold LightsV3.sequence
    rw [h3]
  · intro h
    simp [Lights.extract_period_seconds, h, Lights.DEFAULT_PERIOD_S]
  · intro h
    simp [LightsV5.extract_period_seconds, h, LightsV5.DEFAULT_PERIOD_S]

/-- C8 witness: at period 0 the guarded synthesizer behaves as at the 4 s
default, and an empty text has no period match, so extraction defaults. -/
theorem c8_witness :
    Lights.sequence "FL".toList 0 = Lights.sequence "FL".toList 4 ∧
    Lights.extract_period_seconds [] = 4 := by
  obtain ⟨a, _, _, d, _⟩ := c8_amended_noise_guard "FL".toList 0 [] (by norm_num)
  exact ⟨a, d rfl⟩

/-- C9 counterexample: the cardinal rule precedes the safe-water rule, so
`"Cardinal RW"` — whose text contains the marker `"RW"` — classifies as a
(north) cardinal mark, not as a safe-water mark. -/
theorem c9_counterexample :
    LightsV5.infer_type "Cardinal RW".toList = "north_small" ∧
    ("north_small" : String) ≠ "safe" :=
  ⟨by decide, by decide⟩

/-- C9 (amended): in both classifying variants the safe-water rule
(markers `MO(A)`, `MORSE (A)`, `R/W`, `RW`) precedes every color-based
lateral rule, and only the cardinal rule precedes it: every input whose
uppercased text contains one of the markers and does not contain
`CARDINAL` classifies as the safe-water mark, regardless of any color
present, and exactly one tag is produced. -/
theorem c9_amended_safe_water_unless_cardinal (t char struct : List Char) (b : Bool) :
    ((strContains "MO(A)".toList (pyUpper t) || strContains "MORSE (A)".toList (pyUpper t)
      || strContains "R/W".toList (pyUpper t) || strContains "RW".toList (pyUpper t)) = true →
     strContains "CARDINAL".toList (pyUpper t) = false →
     LightsV5.infer_type t = "safe") ∧
    ((strContains "MO(A)".toList (LightsV6.combined char struct)
      || strContains "MORSE (A)".toList (LightsV6.combined char struct)
      || strContains "R/W".toList (LightsV6.combined char struct)
      || strContains "RW".toList (LightsV6.combined char struct)) = true →
     strContains "CARDINAL".toList (LightsV6.combined char struct) = false →
     LightsV6.infer_buoy_type char struct b = "safe") := by
  constructor
  · intro hm hc
    unfold LightsV5.infer_type
    rw [if_neg (by simp only [hc]; decide), if_pos hm]
  · intro hm hc
    unfold LightsV6.infer_buoy_type
    rw [if_neg (by simp only [hc]; decide), if_pos hm]

/-- C9 witness: `"Mo(A) R/W"` classifies as the safe-water mark. -/
theorem c9_witness : LightsV5.infer_type "Mo(A) R/W".toList = "safe" :=
  (c9_amended_safe_water_unless_cardinal "Mo(A) R/W".toList [] [] false).1
    (by decide) (by decide)

/-- C10: for every characteristic text and every period — however
malformed — the synthesized pattern of each cited variant is a nonempty
string over `{L, D}` that begins lit. -/
theorem c10_patterns_wellformed (ch : List Char) (p : ℚ) :
    goodLD (Lights.sequence ch p) ∧ goodLD (LightsV5.sequence ch p) ∧
    goodLD (LightsV6.sequence ch p) :=
  ⟨seq_good_lights ch p, seq_good_v5 ch p, seq_good_v6 ch p⟩
